import Mathlib

/-!
Shallow embedding of `internal/server/websocket.go` (package `server`):
a per-connection WebSocket session with a synchronized write path
(`SendMessage`), a blocking read loop (`ReadPump`) and a heartbeat
monitor (`heartbeat`) driven by a periodic ticker.

Durations are modelled as `Int` nanoseconds (Go `time.Duration` is an
int64 nanosecond count); counters as `Int` (Go `int`); byte payloads as
`String` (Go converts the `string` payload with `[]byte(message)` and
never inspects the bytes).
-/

namespace WsServer

/-- Go `time.Nanosecond` in nanoseconds. -/
def nanosecond : Int := 1

/-- Go `time.Second` in nanoseconds. -/
def second : Int := 1000000000

/-- `websocket.PingMessage` from gorilla/websocket. -/
def pingMessageType : Int := 9

/-- The `SocketOption` struct: configuration of one session. -/
structure SocketOption where
  writeReadBufferSize : Int
  heartbeatFailMaxTimes : Int
  writeDeadline : Int
  readDeadline : Int
  pingPeriod : Int
  pingMsg : String
deriving Repr, DecidableEq

/-- The zero value of `SocketOption` (`&SocketOption{}` in `NewSocket`). -/
def SocketOption.zero : SocketOption :=
  { writeReadBufferSize := 0
    heartbeatFailMaxTimes := 0
    writeDeadline := 0
    readDeadline := 0
    pingPeriod := 0
    pingMsg := "" }

/-- One configuration mutator (`SocketOptionFunc`): each `With...`
constructor of the source is one case. -/
inductive SocketOptionFunc where
  | withWriteReadBufferSize (size : Int)
  | withReadDeadline (deadline : Int)
  | withHeartbeatFailMaxTimes (heartbeatFailMaxTimes : Int)
  | withWriteDeadline (writeDeadline : Int)
  | withPingPeriod (pingPeriod : Int)
  | withPingMsg (pingMsg : String)
deriving Repr, DecidableEq

/-- `opt.apply(sOpt)`: the field assignment performed by each
`SocketOptionFunc` closure. -/
def SocketOptionFunc.apply (f : SocketOptionFunc) (opt : SocketOption) :
    SocketOption :=
  match f with
  | .withWriteReadBufferSize size => { opt with writeReadBufferSize := size }
  | .withReadDeadline deadline => { opt with readDeadline := deadline }
  | .withHeartbeatFailMaxTimes n => { opt with heartbeatFailMaxTimes := n }
  | .withWriteDeadline writeDeadline => { opt with writeDeadline := writeDeadline }
  | .withPingPeriod pingPeriod => { opt with pingPeriod := pingPeriod }
  | .withPingMsg pingMsg => { opt with pingMsg := pingMsg }

/-- `(s *SocketClient) defaultOption(opts *SocketOption)`: every field
still at its zero value is replaced by its fixed default, in source
order. -/
def defaultOption (opts : SocketOption) : SocketOption :=
  let opts := if opts.pingPeriod == 0 then
    { opts with pingPeriod := 20 * second } else opts
  let opts := if opts.writeDeadline == 0 then
    { opts with writeDeadline := 35 * second } else opts
  let opts := if opts.writeReadBufferSize == 0 then
    { opts with writeReadBufferSize := 20480 } else opts
  let opts := if opts.heartbeatFailMaxTimes == 0 then
    { opts with heartbeatFailMaxTimes := 4 } else opts
  let opts := if opts.readDeadline == 0 then
    { opts with readDeadline := 30 * second } else opts
  opts

/-- The loop in `NewSocket` applying the mutators in order to the zero
struct. -/
def applyOpts (opts : List SocketOptionFunc) : SocketOption :=
  opts.foldl (fun acc f => f.apply acc) SocketOption.zero

/-- The configuration a session built by `NewSocket(ctx, opts...)` ends
up with: mutators applied in order to the zero struct, then
`defaultOption`. -/
def resolveOptions (opts : List SocketOptionFunc) : SocketOption :=
  defaultOption (applyOpts opts)

/-- The pong handler installed by `heartbeat` via `SetPongHandler`:
given the configured option and the current time `now`, the read
deadline it sets on the connection — `some t` for an absolute deadline
`t`, `none` for `time.Time{}` (deadline cleared). -/
def pongHandlerDeadline (opt : SocketOption) (now : Int) : Option Int :=
  if opt.readDeadline > nanosecond then some (now + opt.readDeadline)
  else none

/-- A tag naming the one `SocketOption` field each mutator writes. -/
inductive FieldTag where
  | bufferSize
  | failMax
  | writeDl
  | readDl
  | pingPd
  | pingPayload
deriving Repr, DecidableEq

/-- The field a mutator writes. -/
def SocketOptionFunc.field : SocketOptionFunc → FieldTag
  | .withWriteReadBufferSize _ => .bufferSize
  | .withReadDeadline _ => .readDl
  | .withHeartbeatFailMaxTimes _ => .failMax
  | .withWriteDeadline _ => .writeDl
  | .withPingPeriod _ => .pingPd
  | .withPingMsg _ => .pingPayload

/-- The mutable per-session state of `SocketClient` that the embedded
operations touch: the resolved configuration and the heartbeat failure
counter (the connection handle and the unused `Send` channel are
abstracted away; connection effects are oracle inputs). -/
structure SocketClient where
  option : SocketOption
  heartbeatFailTimes : Int
deriving Repr, DecidableEq

/-- The client produced by `NewSocket(ctx, opts...)` after a successful
upgrade: resolved configuration, failure counter at its zero value. -/
def newSocketClient (opts : List SocketOptionFunc) : SocketClient :=
  { option := resolveOptions opts, heartbeatFailTimes := 0 }

/-- Result of one `SendMessage` call: the error returned (`none` = nil),
the absolute write deadline set on the connection, and the frames
written. -/
structure SendResult where
  err : Option String
  deadlineSetTo : Option Int
  frames : List (Int × String)
deriving Repr, DecidableEq

/-- `(s *SocketClient) SendMessage(messageType, message)`: under the
write lock, `SetWriteDeadline(now + writeDeadline)`, then
`WriteMessage(messageType, []byte(message))`, returning the first
error; `setDeadlineErr` and `writeErr` are the errors those two
connection calls return. Lock acquisition/release is modelled
separately by `LockStep`. -/
def sendMessage (opt : SocketOption) (now : Int)
    (setDeadlineErr writeErr : Option String)
    (messageType : Int) (message : String) : SendResult :=
  match setDeadlineErr with
  | some e => { err := some e, deadlineSetTo := none, frames := [] }
  | none =>
    match writeErr with
    | some e =>
      { err := some e, deadlineSetTo := some (now + opt.writeDeadline)
        frames := [] }
    | none =>
      { err := none, deadlineSetTo := some (now + opt.writeDeadline)
        frames := [(messageType, message)] }

/-- `SendMessage` viewed as a state transformer on `SocketClient`: the
method body assigns to no field of the receiver, so the client state is
returned unchanged. -/
def sendMessageSt (s : SocketClient) (now : Int)
    (setDeadlineErr writeErr : Option String)
    (messageType : Int) (message : String) : SocketClient × SendResult :=
  (s, sendMessage s.option now setDeadlineErr writeErr messageType message)

/-- The ping frame one heartbeat tick attempts to send:
`s.SendMessage(websocket.PingMessage, s.option.pingMsg)`. -/
def heartbeatProbe (opt : SocketOption) : Int × String :=
  (pingMessageType, opt.pingMsg)

/-- One `<-ticker.C` iteration of the `heartbeat` loop. `sendOk` says
whether the ping `SendMessage` returned nil. Yields the updated client
and `true` exactly when the loop executes `return` (monitor stops). -/
def heartbeatTick (s : SocketClient) (sendOk : Bool) : SocketClient × Bool :=
  if sendOk then
    ({ s with heartbeatFailTimes :=
        if s.heartbeatFailTimes > 0 then s.heartbeatFailTimes - 1
        else s.heartbeatFailTimes }, false)
  else
    let s' := { s with heartbeatFailTimes := s.heartbeatFailTimes + 1 }
    (s', s'.heartbeatFailTimes > s.option.heartbeatFailMaxTimes)

/-- Observable outcome of running the `heartbeat` loop against a finite
schedule of tick outcomes. -/
structure HeartbeatResult where
  client : SocketClient
  sends : Nat
  stopped : Bool
deriving Repr, DecidableEq

/-- The `heartbeat` loop run against a finite schedule of send outcomes
(one `Bool` per ticker tick, `true` = the ping write succeeded).
`sends` counts the `SendMessage` attempts; once the loop returns it
consumes no further ticks and sends nothing more. -/
def heartbeatRun (s : SocketClient) : List Bool → HeartbeatResult
  | [] => { client := s, sends := 0, stopped := false }
  | ok :: rest =>
    let t := heartbeatTick s ok
    if t.2 then { client := t.1, sends := 1, stopped := true }
    else
      let r := heartbeatRun t.1 rest
      { client := r.client, sends := r.sends + 1, stopped := r.stopped }

/-- One result of `s.Conn.ReadMessage()`. -/
inductive ReadResult where
  | frame (messageType : Int) (data : String)
  | readErr (e : String)
deriving Repr, DecidableEq

/-- One observable call `ReadPump` makes on its `MessageHandler`. -/
inductive HandlerEvent where
  | onMessage (messageType : Int) (data : String)
  | onError (e : String)
  | onClose
deriving Repr, DecidableEq

/-- Outcome of one `handler.OnMessage` dispatch: normal return, or a Go
panic whose value `v` the deferred recover renders with
`fmt.Sprintf("%v", err)`. -/
inductive DispatchOutcome where
  | ok
  | panicked (v : String)
deriving Repr, DecidableEq

/-- `(s *SocketClient) ReadPump(handler)`: the sequence of handler
calls, given the sequence of `ReadMessage` results and the dispatch
behaviour of the handler. A read error causes `OnError` then `break`;
a panic in dispatch is caught by the deferred recover, which calls
`OnError` with the rendered fault and then `OnClose`. An exhausted
schedule models the loop still blocked in `ReadMessage`. -/
def readPump (disp : Int → String → DispatchOutcome) :
    List ReadResult → List HandlerEvent
  | [] => []
  | .readErr e :: _ => [.onError e]
  | .frame mt data :: rest =>
    match disp mt data with
    | .ok => .onMessage mt data :: readPump disp rest
    | .panicked v => [.onMessage mt data, .onError v, .onClose]

/-- Whether the deferred recover in `ReadPump` fires on this schedule:
`true` exactly when some dispatched `OnMessage` panics before a read
error ends the loop. -/
def readPumpPanicked (disp : Int → String → DispatchOutcome) :
    List ReadResult → Bool
  | [] => false
  | .readErr _ :: _ => false
  | .frame mt data :: rest =>
    match disp mt data with
    | .ok => readPumpPanicked disp rest
    | .panicked _ => true

/-- Program counter of one task executing `SendMessage`: `idle` before
`s.Lock()`; `acquired` holding the lock, about to call
`SetWriteDeadline`; `deadlineSet` about to call `WriteMessage`. The
deferred `s.Unlock()` returns the task to `idle`. -/
inductive WriterPC where
  | idle
  | acquired
  | deadlineSet
deriving Repr, DecidableEq

/-- Shared state of the write path: the mutex (`sync.RWMutex`, held by
at most one writer) and each task's position inside `SendMessage`.
Tasks are identified by `Nat`: application callers and the heartbeat
monitor alike, since the monitor's probe goes through `SendMessage`
like any other write. -/
structure LockState where
  lock : Option Nat
  pc : Nat → WriterPC

/-- Initial state: mutex free, every task outside `SendMessage`. -/
def LockState.init : LockState :=
  { lock := none, pc := fun _ => WriterPC.idle }

/-- Interleaving semantics of concurrent `SendMessage` calls.
`lock` blocks until the mutex is free; `setDeadline` moves past a
successful `SetWriteDeadline`; `setDeadlineErr` is the early return on
a `SetWriteDeadline` error (deferred unlock runs); `write` performs
`WriteMessage` (succeeding or failing) and the deferred unlock. -/
inductive LockStep : LockState → LockState → Prop where
  | lock (σ : LockState) (p : Nat)
      (h1 : σ.pc p = WriterPC.idle) (h2 : σ.lock = none) :
      LockStep σ
        { lock := some p
          pc := fun q => if q = p then WriterPC.acquired else σ.pc q }
  | setDeadline (σ : LockState) (p : Nat)
      (h : σ.pc p = WriterPC.acquired) :
      LockStep σ
        { lock := σ.lock
          pc := fun q => if q = p then WriterPC.deadlineSet else σ.pc q }
  | setDeadlineErr (σ : LockState) (p : Nat)
      (h : σ.pc p = WriterPC.acquired) :
      LockStep σ
        { lock := none
          pc := fun q => if q = p then WriterPC.idle else σ.pc q }
  | write (σ : LockState) (p : Nat)
      (h : σ.pc p = WriterPC.deadlineSet) :
      LockStep σ
        { lock := none
          pc := fun q => if q = p then WriterPC.idle else σ.pc q }

/-- A task is inside `SendMessage`'s lock-protected section (between
`s.Lock()` and the deferred `s.Unlock()`). -/
def LockState.inCritical (σ : LockState) (p : Nat) : Prop :=
  σ.pc p ≠ WriterPC.idle

/-! ## Helper lemmas -/

theorem readPump_map_ok (disp : Int → String → DispatchOutcome)
    (frames : List (Int × String)) (tl : List ReadResult)
    (h : ∀ p ∈ frames, disp p.1 p.2 = DispatchOutcome.ok) :
    readPump disp (frames.map (fun p => ReadResult.frame p.1 p.2) ++ tl) =
      frames.map (fun p => HandlerEvent.onMessage p.1 p.2) ++
        readPump disp tl := by
  induction frames with
  | nil => simp
  | cons p rest ih =>
    have hp := h p (List.mem_cons_self p rest)
    simp only [List.map_cons, List.cons_append, readPump, hp,
      List.append_eq]
    rw [ih (fun q hq => h q (List.mem_cons_of_mem p hq))]

theorem foldl_apply_preserves {α : Type} (g : SocketOption → α)
    (opts : List SocketOptionFunc) (acc : SocketOption)
    (h : ∀ f ∈ opts, ∀ o, g (f.apply o) = g o) :
    g (opts.foldl (fun a f => f.apply a) acc) = g acc := by
  induction opts generalizing acc with
  | nil => rfl
  | cons f rest ih =>
    simp only [List.foldl_cons]
    rw [ih _ (fun f' hf' o => h f' (List.mem_cons_of_mem _ hf') o),
      h f (List.mem_cons_self _ _)]

theorem apply_bufferSize_of_ne (f : SocketOptionFunc)
    (h : f.field ≠ FieldTag.bufferSize) (o : SocketOption) :
    (f.apply o).writeReadBufferSize = o.writeReadBufferSize := by
  cases f <;> simp_all [SocketOptionFunc.apply, SocketOptionFunc.field]

theorem apply_failMax_of_ne (f : SocketOptionFunc)
    (h : f.field ≠ FieldTag.failMax) (o : SocketOption) :
    (f.apply o).heartbeatFailMaxTimes = o.heartbeatFailMaxTimes := by
  cases f <;> simp_all [SocketOptionFunc.apply, SocketOptionFunc.field]

theorem apply_writeDl_of_ne (f : SocketOptionFunc)
    (h : f.field ≠ FieldTag.writeDl) (o : SocketOption) :
    (f.apply o).writeDeadline = o.writeDeadline := by
  cases f <;> simp_all [SocketOptionFunc.apply, SocketOptionFunc.field]

theorem apply_readDl_of_ne (f : SocketOptionFunc)
    (h : f.field ≠ FieldTag.readDl) (o : SocketOption) :
    (f.apply o).readDeadline = o.readDeadline := by
  cases f <;> simp_all [SocketOptionFunc.apply, SocketOptionFunc.field]

theorem apply_pingPd_of_ne (f : SocketOptionFunc)
    (h : f.field ≠ FieldTag.pingPd) (o : SocketOption) :
    (f.apply o).pingPeriod = o.pingPeriod := by
  cases f <;> simp_all [SocketOptionFunc.apply, SocketOptionFunc.field]

theorem apply_pingPayload_of_ne (f : SocketOptionFunc)
    (h : f.field ≠ FieldTag.pingPayload) (o : SocketOption) :
    (f.apply o).pingMsg = o.pingMsg := by
  cases f <;> simp_all [SocketOptionFunc.apply, SocketOptionFunc.field]

theorem defaultOption_bufferSize (o : SocketOption) :
    (defaultOption o).writeReadBufferSize =
      if o.writeReadBufferSize = 0 then 20480
      else o.writeReadBufferSize := by
  simp only [defaultOption]
  split_ifs <;> simp_all

theorem defaultOption_failMax (o : SocketOption) :
    (defaultOption o).heartbeatFailMaxTimes =
      if o.heartbeatFailMaxTimes = 0 then 4
      else o.heartbeatFailMaxTimes := by
  simp only [defaultOption]
  split_ifs <;> simp_all

theorem defaultOption_writeDeadline (o : SocketOption) :
    (defaultOption o).writeDeadline =
      if o.writeDeadline = 0 then 35 * second else o.writeDeadline := by
  simp only [defaultOption]
  split_ifs <;> simp_all

theorem defaultOption_readDeadline (o : SocketOption) :
    (defaultOption o).readDeadline =
      if o.readDeadline = 0 then 30 * second else o.readDeadline := by
  simp only [defaultOption]
  split_ifs <;> simp_all

theorem defaultOption_pingPeriod (o : SocketOption) :
    (defaultOption o).pingPeriod =
      if o.pingPeriod = 0 then 20 * second else o.pingPeriod := by
  simp only [defaultOption]
  split_ifs <;> simp_all

theorem defaultOption_pingMsg (o : SocketOption) :
    (defaultOption o).pingMsg = o.pingMsg := by
  simp only [defaultOption]
  split_ifs <;> simp_all

theorem heartbeatTick_option (s : SocketClient) (ok : Bool) :
    (heartbeatTick s ok).1.option = s.option := by
  cases ok <;> simp [heartbeatTick]

theorem heartbeatRun_option (l : List Bool) (s : SocketClient) :
    (heartbeatRun s l).client.option = s.option := by
  induction l generalizing s with
  | nil => rfl
  | cons ok rest ih =>
    simp only [heartbeatRun]
    by_cases h : (heartbeatTick s ok).2 <;>
      simp [h, ih, heartbeatTick_option]

theorem heartbeatTick_false (s : SocketClient) :
    heartbeatTick s false =
      ({ s with heartbeatFailTimes := s.heartbeatFailTimes + 1 },
        decide (s.heartbeatFailTimes + 1 >
          s.option.heartbeatFailMaxTimes)) := rfl

theorem heartbeatTick_true (s : SocketClient) :
    heartbeatTick s true =
      ({ s with heartbeatFailTimes :=
          if s.heartbeatFailTimes > 0 then s.heartbeatFailTimes - 1
          else s.heartbeatFailTimes }, false) := rfl

theorem heartbeatRun_cons (s : SocketClient) (ok : Bool)
    (rest : List Bool) :
    heartbeatRun s (ok :: rest) =
      (if (heartbeatTick s ok).2 then
        { client := (heartbeatTick s ok).1, sends := 1, stopped := true }
      else
        { client := (heartbeatRun (heartbeatTick s ok).1 rest).client
          sends := (heartbeatRun (heartbeatTick s ok).1 rest).sends + 1
          stopped :=
            (heartbeatRun (heartbeatTick s ok).1 rest).stopped }) :=
  rfl

theorem heartbeatRun_nonneg (l : List Bool) (s : SocketClient)
    (h : 0 ≤ s.heartbeatFailTimes) :
    0 ≤ (heartbeatRun s l).client.heartbeatFailTimes := by
  induction l generalizing s with
  | nil => simpa [heartbeatRun] using h
  | cons ok rest ih =>
    rw [heartbeatRun_cons]
    cases ok with
    | false =>
      rw [heartbeatTick_false]
      by_cases hs : s.heartbeatFailTimes + 1 >
          s.option.heartbeatFailMaxTimes
      · simp only [decide_eq_true_eq, hs, if_true]
        show 0 ≤ s.heartbeatFailTimes + 1
        omega
      · simp only [decide_eq_true_eq, hs, if_false]
        exact ih _ (show (0:Int) ≤ s.heartbeatFailTimes + 1 by omega)
    | true =>
      rw [heartbeatTick_true]
      simp only [Bool.false_eq_true, if_false]
      refine ih _ ?_
      show (0:Int) ≤ if s.heartbeatFailTimes > 0 then
        s.heartbeatFailTimes - 1 else s.heartbeatFailTimes
      split_ifs <;> omega

theorem heartbeatRun_allFail (n : Nat) (s : SocketClient)
    (h0 : 0 ≤ s.heartbeatFailTimes)
    (hm : s.heartbeatFailTimes ≤ s.option.heartbeatFailMaxTimes) :
    (heartbeatRun s (List.replicate n false)).sends =
      min n (s.option.heartbeatFailMaxTimes + 1 -
        s.heartbeatFailTimes).toNat := by
  induction n generalizing s with
  | zero => simp [heartbeatRun]
  | succ n ih =>
    rw [List.replicate_succ, heartbeatRun_cons, heartbeatTick_false]
    by_cases hs : s.heartbeatFailTimes + 1 >
        s.option.heartbeatFailMaxTimes
    · simp only [decide_eq_true_eq, hs, if_true]
      show 1 = min (n + 1) _
      omega
    · simp only [decide_eq_true_eq, hs, if_false]
      show (heartbeatRun
        { s with heartbeatFailTimes := s.heartbeatFailTimes + 1 }
        (List.replicate n false)).sends + 1 = _
      have hrec := ih
        { s with heartbeatFailTimes := s.heartbeatFailTimes + 1 }
        (show (0:Int) ≤ s.heartbeatFailTimes + 1 by omega)
        (show s.heartbeatFailTimes + 1 ≤
          s.option.heartbeatFailMaxTimes by omega)
      rw [hrec]
      show min n (s.option.heartbeatFailMaxTimes + 1 -
        (s.heartbeatFailTimes + 1)).toNat + 1 = _
      omega

theorem heartbeatRun_successes (K : Nat) (s : SocketClient)
    (h0 : 0 ≤ s.heartbeatFailTimes) :
    (heartbeatRun s (List.replicate K true)).client.heartbeatFailTimes
      = max (s.heartbeatFailTimes - K) 0 ∧
    (heartbeatRun s (List.replicate K true)).stopped = false := by
  induction K generalizing s with
  | zero =>
    constructor
    · show s.heartbeatFailTimes = max (s.heartbeatFailTimes - 0) 0
      omega
    · rfl
  | succ K ih =>
    rw [List.replicate_succ, heartbeatRun_cons, heartbeatTick_true]
    simp only [Bool.false_eq_true, if_false]
    have hrec := ih
      { s with heartbeatFailTimes :=
          if s.heartbeatFailTimes > 0 then s.heartbeatFailTimes - 1
          else s.heartbeatFailTimes }
      (by show (0:Int) ≤ if s.heartbeatFailTimes > 0 then
            s.heartbeatFailTimes - 1 else s.heartbeatFailTimes
          split_ifs <;> omega)
    refine ⟨?_, hrec.2⟩
    rw [hrec.1]
    show max ((if s.heartbeatFailTimes > 0 then
      s.heartbeatFailTimes - 1 else s.heartbeatFailTimes) - K) 0 = _
    split_ifs <;> omega

theorem heartbeatRun_failures_then_successes (F K : Nat)
    (s : SocketClient) (h0 : 0 ≤ s.heartbeatFailTimes)
    (hm : s.heartbeatFailTimes + F ≤ s.option.heartbeatFailMaxTimes) :
    (heartbeatRun s
      (List.replicate F false ++
        List.replicate K true)).client.heartbeatFailTimes =
      max (s.heartbeatFailTimes + F - K) 0 ∧
    (heartbeatRun s
      (List.replicate F false ++ List.replicate K true)).stopped =
      false := by
  induction F generalizing s with
  | zero =>
    have h := heartbeatRun_successes K s h0
    simpa using h
  | succ F ih =>
    rw [List.replicate_succ, List.cons_append, heartbeatRun_cons,
      heartbeatTick_false]
    have hs : ¬ s.heartbeatFailTimes + 1 >
        s.option.heartbeatFailMaxTimes := by omega
    simp only [decide_eq_true_eq, hs, if_false]
    have hrec := ih
      { s with heartbeatFailTimes := s.heartbeatFailTimes + 1 }
      (show (0:Int) ≤ s.heartbeatFailTimes + 1 by omega)
      (show s.heartbeatFailTimes + 1 + F ≤
        s.option.heartbeatFailMaxTimes by omega)
    refine ⟨?_, hrec.2⟩
    rw [hrec.1]
    show max (s.heartbeatFailTimes + 1 + F - K) 0 = _
    omega

/-! ## Claim theorems -/

/-- C1. With every probe send failing, the monitor makes exactly
maxHeartbeatFailures + 1 send attempts and then stops permanently (no
further probes regardless of how many more ticks the schedule offers);
threshold 4 gives exactly 5 write attempts, threshold 2 exactly 3. -/
theorem heartbeat_allFail_probe_count (s : SocketClient) (n : Nat)
    (h0 : s.heartbeatFailTimes = 0)
    (hm : 0 ≤ s.option.heartbeatFailMaxTimes)
    (hn : (s.option.heartbeatFailMaxTimes + 1).toNat ≤ n) :
    (heartbeatRun s (List.replicate n false)).sends =
      (s.option.heartbeatFailMaxTimes + 1).toNat ∧
    (s.option.heartbeatFailMaxTimes = 4 →
      (heartbeatRun s (List.replicate n false)).sends = 5) ∧
    (s.option.heartbeatFailMaxTimes = 2 →
      (heartbeatRun s (List.replicate n false)).sends = 3) := by
  have h := heartbeatRun_allFail n s (by omega) (by omega)
  refine ⟨by omega, fun h4 => by omega, fun h2 => by omega⟩

/-- C1 witness: threshold 2, nine all-failing ticks — exactly 3 sends,
and with threshold 4 (the default) exactly 5. -/
theorem heartbeat_allFail_probe_count_witness :
    (heartbeatRun
      (newSocketClient [SocketOptionFunc.withHeartbeatFailMaxTimes 2])
      (List.replicate 9 false)).sends = 3 :=
  (heartbeat_allFail_probe_count
    (newSocketClient [SocketOptionFunc.withHeartbeatFailMaxTimes 2]) 9
    (by decide) (by decide) (by decide)).2.2 (by decide)

/-- C2. The failure counter starts at 0, never goes negative on any
tick schedule, and after F consecutive failures followed by K
consecutive successes (F within the threshold, so the monitor has not
stopped) it equals max(F - K, 0). -/
theorem heartbeat_counter_recovery (s : SocketClient) (F K : Nat)
    (h0 : s.heartbeatFailTimes = 0)
    (hF : (F : Int) ≤ s.option.heartbeatFailMaxTimes) :
    (∀ l : List Bool,
      0 ≤ (heartbeatRun s l).client.heartbeatFailTimes) ∧
    (heartbeatRun s
      (List.replicate F false ++
        List.replicate K true)).client.heartbeatFailTimes =
      max ((F : Int) - (K : Int)) 0 ∧
    (heartbeatRun s
      (List.replicate F false ++ List.replicate K true)).stopped =
      false := by
  have h := heartbeatRun_failures_then_successes F K s (by omega)
    (by omega)
  refine ⟨fun l => heartbeatRun_nonneg l s (by omega), ?_, h.2⟩
  rw [h.1, h0]
  omega

/-- C2 witness: from threshold 4, two failures then three successes
leave the counter at max(2 - 3, 0) = 0, never negative. -/
theorem heartbeat_counter_recovery_witness :
    (heartbeatRun (newSocketClient [])
      (List.replicate 2 false ++
        List.replicate 3 true)).client.heartbeatFailTimes =
      max ((2 : Int) - (3 : Int)) 0 :=
  (heartbeat_counter_recovery (newSocketClient []) 2 3 (by decide)
    (by decide)).2.1

/-- C9. The configuration is immutable after construction: any run of
heartbeat ticks leaves every `option` field unchanged (each tick writes
only the failure counter), and `SendMessage` — like `ReadPump`, whose
embedding reads no client state at all — assigns to no field of the
client. -/
theorem config_immutable (s : SocketClient) (l : List Bool) (now : Int)
    (setDeadlineErr writeErr : Option String) (messageType : Int)
    (message : String) :
    (heartbeatRun s l).client.option = s.option ∧
    (∀ ok : Bool, (heartbeatTick s ok).1.option = s.option) ∧
    (sendMessageSt s now setDeadlineErr writeErr messageType
      message).1 = s :=
  ⟨heartbeatRun_option l s, fun ok => heartbeatTick_option s ok, rfl⟩


/-- C7. `SendMessage` sets the write deadline to now plus the
configured write deadline, writes exactly one frame of the given type
and payload, and returns the first error without retry: a deadline-set
error is returned with no write performed; a write error is returned;
otherwise no error. -/
theorem sendMessage_first_error (opt : SocketOption) (now : Int)
    (setDeadlineErr writeErr : Option String)
    (messageType : Int) (message : String) :
    (∀ e, setDeadlineErr = some e →
      sendMessage opt now setDeadlineErr writeErr messageType message =
        { err := some e, deadlineSetTo := none, frames := [] }) ∧
    (setDeadlineErr = none → ∀ e, writeErr = some e →
      sendMessage opt now setDeadlineErr writeErr messageType message =
        { err := some e, deadlineSetTo := some (now + opt.writeDeadline)
          frames := [] }) ∧
    (setDeadlineErr = none → writeErr = none →
      sendMessage opt now setDeadlineErr writeErr messageType message =
        { err := none, deadlineSetTo := some (now + opt.writeDeadline)
          frames := [(messageType, message)] }) := by
  refine ⟨fun e he => ?_, fun h1 e he => ?_, fun h1 h2 => ?_⟩ <;>
    subst_vars <;> rfl

/-- C7 witness: a successful send with the default 35s write deadline
writes exactly the one frame and returns no error. -/
theorem sendMessage_first_error_witness :
    sendMessage (resolveOptions []) 0 none none 1 "x" =
      { err := none, deadlineSetTo := some (35 * second)
        frames := [(1, "x")] } := by
  have h := (sendMessage_first_error (resolveOptions []) 0 none none 1
    "x").2.2 rfl rfl
  rw [h]
  rfl

/-- C5. `ReadPump` invokes `OnMessage` once per successfully read
frame, in arrival order; the first read error stops delivery with
exactly one `OnError` call, no `OnMessage` afterward, and everything
after the error is never read. -/
theorem readPump_in_order_single_onError
    (disp : Int → String → DispatchOutcome)
    (frames : List (Int × String)) (e : String) (rest : List ReadResult)
    (h : ∀ p ∈ frames, disp p.1 p.2 = DispatchOutcome.ok) :
    readPump disp
      (frames.map (fun p => ReadResult.frame p.1 p.2) ++
        ReadResult.readErr e :: rest) =
      frames.map (fun p => HandlerEvent.onMessage p.1 p.2) ++
        [HandlerEvent.onError e] := by
  rw [readPump_map_ok disp frames (ReadResult.readErr e :: rest) h]
  rfl

/-- C5 witness: two frames then a read error produce the two ordered
`OnMessage` calls and a single final `OnError`. -/
theorem readPump_in_order_single_onError_witness :
    readPump (fun _ _ => DispatchOutcome.ok)
      ([(1, "a"), (2, "b")].map (fun p => ReadResult.frame p.1 p.2) ++
        ReadResult.readErr "boom" :: [ReadResult.frame 3 "c"]) =
      [(1, "a"), (2, "b")].map
        (fun p => HandlerEvent.onMessage p.1 p.2) ++
        [HandlerEvent.onError "boom"] :=
  readPump_in_order_single_onError (fun _ _ => DispatchOutcome.ok)
    [(1, "a"), (2, "b")] "boom" [ReadResult.frame 3 "c"]
    (fun _ _ => rfl)

/-- C6. `ReadPump` calls `OnClose` if and only if a panic is raised
during the read/dispatch loop; when it is, the trace ends with
`OnError` carrying the fault followed by `OnClose` — on ordinary
read-error termination `OnClose` is never called. -/
theorem readPump_onClose_iff_panic
    (disp : Int → String → DispatchOutcome) (reads : List ReadResult) :
    (HandlerEvent.onClose ∈ readPump disp reads ↔
      readPumpPanicked disp reads = true) ∧
    (readPumpPanicked disp reads = true →
      ∃ pre v, readPump disp reads =
        pre ++ [HandlerEvent.onError v, HandlerEvent.onClose]) := by
  induction reads with
  | nil => simp [readPump, readPumpPanicked]
  | cons r rest ih =>
    cases r with
    | readErr e => simp [readPump, readPumpPanicked]
    | frame mt data =>
      cases hd : disp mt data with
      | ok =>
        constructor
        · simpa [readPump, readPumpPanicked, hd] using ih.1
        · intro hp
          have hp' : readPumpPanicked disp rest = true := by
            simpa [readPumpPanicked, hd] using hp
          obtain ⟨pre, v, hv⟩ := ih.2 hp'
          exact ⟨HandlerEvent.onMessage mt data :: pre, v, by
            simp [readPump, hd, hv]⟩
      | panicked v =>
        constructor
        · simp [readPump, readPumpPanicked, hd]
        · intro _
          exact ⟨[HandlerEvent.onMessage mt data], v, by
            simp [readPump, hd]⟩

/-- C6 witness: with a handler that panics on the second frame, the
recover fires and the trace ends with the fault's `OnError` then
`OnClose`. -/
theorem readPump_onClose_iff_panic_witness :
    HandlerEvent.onClose ∈ readPump
      (fun _ d => if d = "b" then DispatchOutcome.panicked "p"
        else DispatchOutcome.ok)
      [ReadResult.frame 1 "a", ReadResult.frame 2 "b",
        ReadResult.readErr "x"] :=
  (readPump_onClose_iff_panic
    (fun _ d => if d = "b" then DispatchOutcome.panicked "p"
      else DispatchOutcome.ok)
    [ReadResult.frame 1 "a", ReadResult.frame 2 "b",
      ReadResult.readErr "x"]).1.mpr (by decide)

/-- C3 counterexample: constructing with the readDeadline option set
to 0 does not disable the deadline — `defaultOption` replaces the zero
with 30 s, and the pong handler then sets a new deadline instead of
clearing it. -/
theorem readDeadline_zero_counterexample :
    (resolveOptions [SocketOptionFunc.withReadDeadline 0]).readDeadline =
      30 * second ∧
    pongHandlerDeadline
      (resolveOptions [SocketOptionFunc.withReadDeadline 0]) 0 =
      some (30 * second) ∧
    pongHandlerDeadline
      (resolveOptions [SocketOptionFunc.withReadDeadline 0]) 0 ≠
      none := by
  refine ⟨by decide, by decide, by decide⟩

/-- C3 amended: a readDeadline option of 0 is indistinguishable from
unset and yields the 30 s default, so after a pong the deadline is
pushed forward by 30 s rather than cleared; the deadline is cleared on
pong only when the resolved readDeadline is at most 1 ns, which
requires an explicitly negative (or 1 ns) option value. -/
theorem readDeadline_zero_gets_default (now d : Int) :
    pongHandlerDeadline
      (resolveOptions [SocketOptionFunc.withReadDeadline 0]) now =
      some (now + 30 * second) ∧
    (d < 0 →
      pongHandlerDeadline
        (resolveOptions [SocketOptionFunc.withReadDeadline d]) now =
        none) := by
  constructor
  · have h30 : (resolveOptions
        [SocketOptionFunc.withReadDeadline 0]).readDeadline =
        30 * second := by decide
    simp [pongHandlerDeadline, h30, nanosecond, second]
  · intro hd
    have hne : d ≠ 0 := by omega
    have hd' : (resolveOptions
        [SocketOptionFunc.withReadDeadline d]).readDeadline = d := by
      have : (applyOpts [SocketOptionFunc.withReadDeadline d]).readDeadline
          = d := rfl
      rw [resolveOptions, defaultOption_readDeadline, this, if_neg hne]
    have hle : ¬ d > nanosecond := by
      simp only [nanosecond]
      omega
    simp [pongHandlerDeadline, hd', hle]

/-- C3 amended witness: at now = 0, the pong handler extends the
deadline to 30 s for a zero readDeadline option and clears it for a
negative one. -/
theorem readDeadline_zero_gets_default_witness :
    pongHandlerDeadline
      (resolveOptions [SocketOptionFunc.withReadDeadline 0]) 0 =
      some (0 + 30 * second) ∧
    pongHandlerDeadline
      (resolveOptions [SocketOptionFunc.withReadDeadline (-1)]) 0 =
      none :=
  ⟨(readDeadline_zero_gets_default 0 (-1)).1,
    (readDeadline_zero_gets_default 0 (-1)).2 (by decide)⟩

/-- C4 counterexample: the mutator `WithWriteDeadline(0)` explicitly
sets the write deadline to 0, yet the resolved configuration holds the
35 s default — an explicitly set field overwritten by its default. -/
theorem explicit_zero_option_overwritten :
    (applyOpts [SocketOptionFunc.withWriteDeadline 0]).writeDeadline =
      0 ∧
    (resolveOptions [SocketOptionFunc.withWriteDeadline 0]).writeDeadline
      = 35 * second ∧
    (35 * second : Int) ≠ 0 := by
  refine ⟨by decide, by decide, by decide⟩

/-- C4 amended: each of the five defaulted fields not touched by any
mutator resolves to its documented default (pingPeriod 20 s,
writeDeadline 35 s, readDeadline 30 s, bufferSize 20480,
maxHeartbeatFailures 4), independently per field; and a field holding a
nonzero value is never overwritten by `defaultOption` — a field a
mutator sets to its zero value is indistinguishable from unset and
receives the default. -/
theorem defaults_per_field (opts : List SocketOptionFunc) :
    ((∀ f ∈ opts, f.field ≠ FieldTag.bufferSize) →
      (resolveOptions opts).writeReadBufferSize = 20480) ∧
    ((∀ f ∈ opts, f.field ≠ FieldTag.failMax) →
      (resolveOptions opts).heartbeatFailMaxTimes = 4) ∧
    ((∀ f ∈ opts, f.field ≠ FieldTag.writeDl) →
      (resolveOptions opts).writeDeadline = 35 * second) ∧
    ((∀ f ∈ opts, f.field ≠ FieldTag.readDl) →
      (resolveOptions opts).readDeadline = 30 * second) ∧
    ((∀ f ∈ opts, f.field ≠ FieldTag.pingPd) →
      (resolveOptions opts).pingPeriod = 20 * second) ∧
    (∀ o : SocketOption,
      (o.writeReadBufferSize ≠ 0 →
        (defaultOption o).writeReadBufferSize = o.writeReadBufferSize) ∧
      (o.heartbeatFailMaxTimes ≠ 0 →
        (defaultOption o).heartbeatFailMaxTimes =
          o.heartbeatFailMaxTimes) ∧
      (o.writeDeadline ≠ 0 →
        (defaultOption o).writeDeadline = o.writeDeadline) ∧
      (o.readDeadline ≠ 0 →
        (defaultOption o).readDeadline = o.readDeadline) ∧
      (o.pingPeriod ≠ 0 →
        (defaultOption o).pingPeriod = o.pingPeriod)) := by
  refine ⟨fun h => ?_, fun h => ?_, fun h => ?_, fun h => ?_,
    fun h => ?_, fun o => ?_⟩
  · have hz : (applyOpts opts).writeReadBufferSize = 0 :=
      foldl_apply_preserves (fun o => o.writeReadBufferSize) opts
        SocketOption.zero
        (fun f hf o => apply_bufferSize_of_ne f (h f hf) o)
    rw [resolveOptions, defaultOption_bufferSize, hz, if_pos rfl]
  · have hz : (applyOpts opts).heartbeatFailMaxTimes = 0 :=
      foldl_apply_preserves (fun o => o.heartbeatFailMaxTimes) opts
        SocketOption.zero
        (fun f hf o => apply_failMax_of_ne f (h f hf) o)
    rw [resolveOptions, defaultOption_failMax, hz, if_pos rfl]
  · have hz : (applyOpts opts).writeDeadline = 0 :=
      foldl_apply_preserves (fun o => o.writeDeadline) opts
        SocketOption.zero
        (fun f hf o => apply_writeDl_of_ne f (h f hf) o)
    rw [resolveOptions, defaultOption_writeDeadline, hz, if_pos rfl]
  · have hz : (applyOpts opts).readDeadline = 0 :=
      foldl_apply_preserves (fun o => o.readDeadline) opts
        SocketOption.zero
        (fun f hf o => apply_readDl_of_ne f (h f hf) o)
    rw [resolveOptions, defaultOption_readDeadline, hz, if_pos rfl]
  · have hz : (applyOpts opts).pingPeriod = 0 :=
      foldl_apply_preserves (fun o => o.pingPeriod) opts
        SocketOption.zero
        (fun f hf o => apply_pingPd_of_ne f (h f hf) o)
    rw [resolveOptions, defaultOption_pingPeriod, hz, if_pos rfl]
  · refine ⟨fun hne => ?_, fun hne => ?_, fun hne => ?_, fun hne => ?_,
      fun hne => ?_⟩
    · rw [defaultOption_bufferSize, if_neg hne]
    · rw [defaultOption_failMax, if_neg hne]
    · rw [defaultOption_writeDeadline, if_neg hne]
    · rw [defaultOption_readDeadline, if_neg hne]
    · rw [defaultOption_pingPeriod, if_neg hne]

/-- C4 amended witness: with only the ping payload set, the write
deadline resolves to its 35 s default, and `defaultOption` leaves a
nonzero write deadline untouched. -/
theorem defaults_per_field_witness :
    (resolveOptions [SocketOptionFunc.withPingMsg "hi"]).writeDeadline =
      35 * second ∧
    (defaultOption
      (applyOpts [SocketOptionFunc.withWriteDeadline 7])).writeDeadline =
      7 :=
  ⟨(defaults_per_field [SocketOptionFunc.withPingMsg "hi"]).2.2.1
      (by decide),
    ((defaults_per_field []).2.2.2.2.2
      (applyOpts [SocketOptionFunc.withWriteDeadline 7])).2.2.1
      (by decide)⟩

/-- C10. The heartbeat probe payload has no non-empty default: for any
mutator sequence without the ping-payload option it stays the empty
string — `defaultOption` never touches it — and each heartbeat probe is
a ping frame with empty payload. -/
theorem pingMsg_no_default (opts : List SocketOptionFunc)
    (h : ∀ f ∈ opts, f.field ≠ FieldTag.pingPayload) :
    (resolveOptions opts).pingMsg = "" ∧
    (∀ o : SocketOption, (defaultOption o).pingMsg = o.pingMsg) ∧
    heartbeatProbe (resolveOptions opts) = (pingMessageType, "") := by
  have hz : (applyOpts opts).pingMsg = "" :=
    foldl_apply_preserves (fun o => o.pingMsg) opts SocketOption.zero
      (fun f hf o => apply_pingPayload_of_ne f (h f hf) o)
  have hres : (resolveOptions opts).pingMsg = "" := by
    rw [resolveOptions, defaultOption_pingMsg, hz]
  refine ⟨hres, fun o => defaultOption_pingMsg o, ?_⟩
  rw [heartbeatProbe, hres]

/-- C10 witness: a sequence setting only the ping period leaves the
probe payload empty. -/
theorem pingMsg_no_default_witness :
    (resolveOptions [SocketOptionFunc.withPingPeriod 7]).pingMsg = "" :=
  (pingMsg_no_default [SocketOptionFunc.withPingPeriod 7]
    (by decide)).1

theorem lockStep_inv {σ σ' : LockState} (h : LockStep σ σ')
    (hinv : ∀ p, σ.pc p ≠ WriterPC.idle → σ.lock = some p) :
    ∀ p, σ'.pc p ≠ WriterPC.idle → σ'.lock = some p := by
  cases h with
  | lock p h1 h2 =>
    intro q hq
    by_cases hqp : q = p
    · subst hqp
      rfl
    · simp only [hqp, if_false] at hq
      exact absurd (hinv q hq) (by simp [h2])
  | setDeadline p h =>
    intro q hq
    by_cases hqp : q = p
    · subst hqp
      exact hinv q (by simp [h])
    · simp only [hqp, if_false] at hq
      exact hinv q hq
  | setDeadlineErr p h =>
    intro q hq
    by_cases hqp : q = p
    · subst hqp
      simp only [if_pos rfl] at hq
      exact absurd rfl hq
    · simp only [hqp, if_false] at hq
      have h1 := hinv q hq
      have h2 := hinv p (by simp [h])
      rw [h1] at h2
      exact absurd (Option.some.inj h2) hqp
  | write p h =>
    intro q hq
    by_cases hqp : q = p
    · subst hqp
      simp only [if_pos rfl] at hq
      exact absurd rfl hq
    · simp only [hqp, if_false] at hq
      have h1 := hinv q hq
      have h2 := hinv p (by simp [h])
      rw [h1] at h2
      exact absurd (Option.some.inj h2) hqp

/-- Lock-holding invariant: in every reachable state, a task inside
`SendMessage`'s body holds the mutex. -/
theorem lockReach_inv (σ : LockState)
    (hreach : Relation.ReflTransGen LockStep LockState.init σ) :
    ∀ p, σ.pc p ≠ WriterPC.idle → σ.lock = some p := by
  induction hreach with
  | refl => exact fun r hr => absurd rfl hr
  | tail hsteps hstep ih => exact lockStep_inv hstep ih

/-- C8. Mutual exclusion of the write path: in every state reachable by
interleaving any number of concurrent `SendMessage` callers
(application tasks and the heartbeat monitor alike), at most one task
is inside the lock-protected section that sets the deadline and writes
the frame — so no two connection writes interleave. -/
theorem sendMessage_mutual_exclusion (σ : LockState)
    (hreach : Relation.ReflTransGen LockStep LockState.init σ)
    (p q : Nat) (hp : σ.inCritical p) (hq : σ.inCritical q) : p = q := by
  have h1 := lockReach_inv σ hreach p hp
  have h2 := lockReach_inv σ hreach q hq
  rw [h1] at h2
  exact Option.some.inj h2

/-- C8 witness: after task 0 acquires the lock from the initial state,
it is in the critical section, and the theorem forces any two critical
tasks to coincide. -/
theorem sendMessage_mutual_exclusion_witness : (0 : Nat) = 0 :=
  sendMessage_mutual_exclusion
    { lock := some 0
      pc := fun q => if q = 0 then WriterPC.acquired
        else LockState.init.pc q }
    (Relation.ReflTransGen.single (LockStep.lock LockState.init 0 rfl
      rfl))
    0 0
    (by simp [LockState.inCritical])
    (by simp [LockState.inCritical])

end WsServer
